import Mathlib

/-!
Shallow embedding of the `derive-into-owned` procedural-macro crate
(src/src/lib.rs and src/src/helpers.rs) and proofs about its field
classifier, expression synthesizer and method assembler.

Modelling conventions:
 * A `syn` type path is a list of segments; only generic arguments at a
   segment are modelled (new-syn `arguments` and old-syn `parameters`
   both denote the same data of a segment, so one field stands for both;
   old-syn's `data.types` is the type-argument sublist of that list).
 * `quote!` token streams are rendered as strings, each template token
   separated by one space; `\x7b`/`\x7d` are the literal braces.  The
   generated doc-comment attributes are not part of the rendering.
 * A panic of the macro (`todo!()`, `Option::unwrap` on `None`) aborts
   code generation, so generator functions return `Except String String`
   with `Except.error` standing for the panic.
 * the loops of `is_opt_cow`/`is_iter_field` re-enter on the segment list
   of a strictly nested type argument, so the number of iterations is
   bounded by the size of the input; the loop is embedded with a fuel
   parameter instantiated at `sizeSegments segments + 1`, which that
   bound keeps from running out (`is_opt_cow_go_fuel_stable` and
   `is_iter_field_go_fuel_stable` prove any fuel above the input's size
   gives the same answer).
-/

namespace DeriveIntoOwned

/-! ### The syn-like abstract syntax the crate inspects -/

mutual

inductive Ty where
  | path (qself : Bool) (segments : List PathSegment)
  | other
  deriving Repr

inductive PathSegment where
  | mk (ident : String) (arguments : PathArguments)
  deriving Repr

inductive PathArguments where
  | none
  | angleBracketed (args : List GenericArg)
  | parenthesized
  deriving Repr

inductive GenericArg where
  | lifetime (name : String)
  | tyArg (t : Ty)
  | binding (ident : String) (t : Ty)
  deriving Repr

end

mutual

/-- size of a type, bounding the nesting depth the classifier loops can
descend through -/
def Ty.size : Ty → Nat
  | .path _ segs => 1 + sizeSegments segs
  | .other => 1

def sizeSegments : List PathSegment → Nat
  | [] => 0
  | s :: rest => PathSegment.size s + sizeSegments rest

def PathSegment.size : PathSegment → Nat
  | .mk _ a => 1 + PathArguments.size a

def PathArguments.size : PathArguments → Nat
  | .angleBracketed args => 1 + sizeArgs args
  | _ => 1

def sizeArgs : List GenericArg → Nat
  | [] => 0
  | a :: rest => GenericArg.size a + sizeArgs rest

def GenericArg.size : GenericArg → Nat
  | .lifetime _ => 1
  | .tyArg t => 1 + Ty.size t
  | .binding _ t => 1 + Ty.size t

end

def PathSegment.identOf : PathSegment → String
  | .mk i _ => i

def PathSegment.argumentsOf : PathSegment → PathArguments
  | .mk _ a => a

/-- `segments.last().map(|x| &x.arguments)` -/
def lastArguments (segments : List PathSegment) : Option PathArguments :=
  segments.getLast?.map PathSegment.argumentsOf

def GenericArg.isLifetime : GenericArg → Bool
  | .lifetime _ => true
  | _ => false

def GenericArg.isBinding : GenericArg → Bool
  | .binding _ _ => true
  | _ => false

def GenericArg.isTyArg : GenericArg → Bool
  | .tyArg _ => true
  | _ => false

/-- old-syn `data.types`: the type arguments among an angle-bracketed list -/
def typeArguments (args : List GenericArg) : List Ty :=
  args.filterMap fun a => match a with
    | .tyArg t => some t
    | _ => Option.none

/-! ### src/src/helpers.rs -/

namespace helpers

/-- helpers.rs `has_lifetime_arguments`: note the negation `!args.any(...)`
in the source, which this embedding reproduces -/
def has_lifetime_arguments (segments : List PathSegment) : Bool :=
  match lastArguments segments with
  | some (.angleBracketed args) => !(args.any GenericArg.isLifetime)
  | _ => false

/-- helpers.rs `number_of_type_arguments` -/
def number_of_type_arguments (segments : List PathSegment) : Nat :=
  match lastArguments segments with
  | some (.angleBracketed args) => (args.filter GenericArg.isTyArg).length
  | _ => 0

/-- helpers.rs `has_binding_arguments`: same negated shape as
`has_lifetime_arguments` -/
def has_binding_arguments (segments : List PathSegment) : Bool :=
  match lastArguments segments with
  | some (.angleBracketed args) => !(args.any GenericArg.isBinding)
  | _ => false

/-- helpers.rs `is_cow_alike`: its body is character-for-character the body
of helpers.rs `has_lifetime_arguments` -/
def is_cow_alike (segments : List PathSegment) : Bool :=
  match lastArguments segments with
  | some (.angleBracketed args) => !(args.any GenericArg.isLifetime)
  | _ => false

end helpers

/-! ### src/src/lib.rs: path matching and the field classifier -/

/-- Rust `str::split("::")`, reading the characters left to right -/
def splitPath : List Char → List Char → List String
  | [], acc => [String.mk acc.reverse]
  | ':' :: ':' :: rest, acc => String.mk acc.reverse :: splitPath rest []
  | c :: rest, acc => splitPath rest (c :: acc)

/-- `expected.split("::")` of lib.rs `type_hopefully_is` -/
def splitOnDoubleColons (s : String) : List String :=
  splitPath s.data []

/-- lib.rs `type_hopefully_is` -/
def type_hopefully_is (segments : List PathSegment) (expected : String) : Bool :=
  let exp := splitOnDoubleColons expected
  if segments.length > exp.length then false
  else
    let names := segments.map PathSegment.identOf
    (List.range exp.length).any fun len => names == exp.drop (exp.length - len - 1)

/-- lib.rs `is_cow` -/
def is_cow (segments : List PathSegment) : Bool :=
  type_hopefully_is segments "std::borrow::Cow"

/-- lib.rs `is_cow_alike`: guards on an angle-bracketed argument list being
present, then defers to helpers' (negated) `has_lifetime_arguments` -/
def is_cow_alike (segments : List PathSegment) : Bool :=
  match lastArguments segments with
  | some (.angleBracketed _) => helpers.has_lifetime_arguments segments
  | _ => false

inductive FieldKind where
  | PlainCow
  | AssumedCow
  | OptField (levels : Nat) (inner : FieldKind)
  | IterableField (inner : FieldKind)
  | JustMoved
  deriving Repr, DecidableEq

/-- the loop of lib.rs `is_opt_cow`, with the mutable `levels`/`segments`
as parameters and a fuel in place of the structural descent into the
single type argument; every `break` of the source returns `none` here -/
def is_opt_cow_go : Nat → Nat → List PathSegment → Option FieldKind
  | 0, _, _ => Option.none
  | fuel + 1, levels, segments =>
    if type_hopefully_is segments "std::option::Option" then
      match lastArguments segments with
      | some (.angleBracketed args) =>
        if helpers.has_lifetime_arguments segments ||
            helpers.has_binding_arguments segments then Option.none
        else if (typeArguments args).length ≠ 1 then Option.none
        else match (typeArguments args).head? with
          | some (.path false next_segments) =>
            is_opt_cow_go fuel (levels + 1) next_segments
          | _ => Option.none
      | _ => Option.none
    else if is_cow segments then some (.OptField levels .PlainCow)
    else if is_cow_alike segments then some (.OptField levels .AssumedCow)
    else Option.none

/-- lib.rs `is_opt_cow` -/
def is_opt_cow (segments : List PathSegment) : Option FieldKind :=
  is_opt_cow_go (sizeSegments segments + 1) 0 segments

/-- the loop of lib.rs `is_iter_field`, embedded like `is_opt_cow_go` -/
def is_iter_field_go : Nat → List PathSegment → Option FieldKind
  | 0, _ => Option.none
  | fuel + 1, segments =>
    if type_hopefully_is segments "std::vec::Vec" then
      match lastArguments segments with
      | some (.angleBracketed args) =>
        if helpers.has_lifetime_arguments segments ||
            helpers.has_binding_arguments segments then Option.none
        else if (typeArguments args).length ≠ 1 then Option.none
        else match (typeArguments args).head? with
          | some (.path false next_segments) =>
            is_iter_field_go fuel next_segments
          | _ => Option.none
      | _ => Option.none
    else if is_cow segments then some (.IterableField .PlainCow)
    else if is_cow_alike segments then some (.IterableField .AssumedCow)
    else Option.none

/-- lib.rs `is_iter_field` -/
def is_iter_field (segments : List PathSegment) : Option FieldKind :=
  is_iter_field_go (sizeSegments segments + 1) segments

/-- a syn `Field`: optional name and declared type -/
structure Field where
  ident : Option String
  ty : Ty

/-- lib.rs `FieldKind::resolve` -/
def FieldKind.resolve (field : Field) : FieldKind :=
  match field.ty with
  | .path _ segments =>
    if is_cow segments then .PlainCow
    else if is_cow_alike segments then .AssumedCow
    else match is_opt_cow segments with
      | some kind => kind
      | Option.none =>
        match is_iter_field segments with
        | some kind => kind
        | Option.none => .JustMoved
  | .other => .JustMoved

/-! ### src/src/lib.rs: the expression synthesizer -/

/-- the `for _ in 0..(levels - 1)` wrapping loop of
`FieldKind::move_or_clone_field` -/
def mapLayers : Nat → String → String → String
  | 0, _, tokens => tokens
  | n + 1, next, tokens =>
    mapLayers n next (next ++ ".map(|" ++ next ++ "| " ++ tokens ++ ")")

/-- lib.rs `FieldKind::move_or_clone_field`. Its `levels - 1` is usize
subtraction: sound because the classifier only builds `OptField` with
`levels ≥ 1` (proved below); Lean's truncated `-` stands in for it. -/
def FieldKind.move_or_clone_field : FieldKind → String → String
  | .PlainCow, var => "::std::borrow::Cow::Owned(" ++ var ++ ".into_owned())"
  | .AssumedCow, var => var ++ ".into_owned()"
  | .OptField levels inner, var =>
    let next := "val"
    let tokens := mapLayers (levels - 1) next (inner.move_or_clone_field next)
    var ++ ".map(|" ++ next ++ "| " ++ tokens ++ ")"
  | .IterableField inner, var =>
    var ++ ".into_iter().map(|x| " ++ inner.move_or_clone_field "x" ++ ").collect()"
  | .JustMoved, var => var

/-- the wrapping loop of `FieldKind::borrow_or_clone` -/
def borrowMapLayers : Nat → String → String → String
  | 0, _, tokens => tokens
  | n + 1, next, tokens =>
    borrowMapLayers n next (next ++ ".as_ref().map(|" ++ next ++ "| " ++ tokens ++ ")")

/-- lib.rs `FieldKind::borrow_or_clone` -/
def FieldKind.borrow_or_clone : FieldKind → String → String
  | .PlainCow, var => "::std::borrow::Cow::Borrowed(" ++ var ++ ".as_ref())"
  | .AssumedCow, var => var ++ ".borrowed()"
  | .OptField levels inner, var =>
    let next := "val"
    let tokens := borrowMapLayers (levels - 1) next (inner.borrow_or_clone next)
    var ++ ".as_ref().map(|" ++ next ++ "| " ++ tokens ++ ")"
  | .IterableField inner, var =>
    var ++ ".iter().map(|x| " ++ inner.borrow_or_clone "x" ++ ").collect()"
  | .JustMoved, var => var ++ ".clone()"

/-! ### src/src/lib.rs: declaration visitor and method assembler -/

/-- a declaration body: a struct's field list (named fields carry `some`
ident, positional fields `none`), an enum's variants (each passing its
fields on as the hybrid source does), or a union -/
inductive Data where
  | struct (fields : List Field)
  | enum (variants : List (String × Data))
  | union

/-- generic parameters of the input declaration: lifetime parameters and
type parameters, each rendered as its token (bounds are not modelled, so
quoting a parameter and quoting its ident render alike) -/
structure Generics where
  lifetimes : List String
  ty_params : List String

/-- syn `DeriveInput`: name, generics and body of the annotated type -/
structure DeriveInput where
  ident : String
  generics : Generics
  data : Data

/-- `#(#parts),*` of a `quote!` template -/
def joinComma (parts : List String) : String :=
  String.intercalate ", " parts

/-- `field.ident.as_ref().unwrap()`: the panic on a positional field is
the abort path of the generator -/
def unwrapIdent : Option String → Except String String
  | some i => pure i
  | Option.none => Except.error "called Option::unwrap() on a None value"

/-- the field iterator of the generators: each element may abort (panic),
which aborts the whole generation -/
def mapExcept (f : α → Except String β) : List α → Except String (List β)
  | [] => pure []
  | a :: rest => do
    let b ← f a
    let bs ← mapExcept f rest
    pure (b :: bs)

/-- lib.rs trait `BodyGenerator`, as a record of the strategy's methods -/
structure BodyGenerator where
  quote_borrowed_params : DeriveInput → List String
  quote_type_params : DeriveInput → List String
  quote_rhs_params : DeriveInput → List String
  visit_struct : Data → Except String String
  visit_enum_data : String → Data → Except String String
  combine_impl : String → String → String → String → String → String

/-- default `BodyGenerator::quote_borrowed_params`: the declaration's
lifetime parameters then its type parameters -/
def default_quote_borrowed_params (ast : DeriveInput) : List String :=
  ast.generics.lifetimes ++ ast.generics.ty_params

/-- default `BodyGenerator::quote_type_params` -/
def default_quote_type_params (ast : DeriveInput) : List String :=
  ast.generics.lifetimes ++ ast.generics.ty_params

/-- default `BodyGenerator::quote_rhs_params`: every lifetime becomes
`'static`, type parameters pass through by ident -/
def default_quote_rhs_params (ast : DeriveInput) : List String :=
  ast.generics.lifetimes.map (fun _ => "'static") ++ ast.generics.ty_params

/-- the per-field closure of `IntoOwnedGen::visit_struct` -/
def intoOwnedFieldCode (field : Field) : Except String String := do
  let ident ← unwrapIdent field.ident
  let code := (FieldKind.resolve field).move_or_clone_field ("self." ++ ident)
  pure (ident ++ ": " ++ code)

/-- `IntoOwnedGen::visit_struct` -/
def intoOwnedVisitStruct : Data → Except String String
  | .struct fields => do
    let fs ← mapExcept intoOwnedFieldCode fields
    pure ("\x7b " ++ joinComma fs ++ " \x7d")
  | .enum _ => Except.error "not yet implemented"
  | .union => Except.error "not yet implemented"

/-- `IntoOwnedGen::visit_enum_data` -/
def intoOwnedVisitEnumData (ident : String) : Data → Except String String
  | .struct fields => do
    let idents ← mapExcept (fun f => unwrapIdent f.ident) fields
    let cloned ← mapExcept (fun f => do
      let i ← unwrapIdent f.ident
      pure (i ++ ": " ++ (FieldKind.resolve f).move_or_clone_field i)) fields
    pure (ident ++ " \x7b " ++ joinComma idents ++ " \x7d => " ++
      ident ++ " \x7b " ++ joinComma cloned ++ " \x7d")
  | .enum _ => Except.error "not yet implemented"
  | .union => Except.error "not yet implemented"

/-- `IntoOwnedGen::combine_impl` (the generated doc attribute is left out
of the rendering) -/
def intoOwnedCombineImpl (borrowed name params owned body : String) : String :=
  "impl " ++ borrowed ++ " " ++ name ++ " " ++ params ++
    " \x7b pub fn into_owned(self) -> " ++ name ++ " " ++ owned ++
    " \x7b " ++ body ++ " \x7d \x7d"

/-- lib.rs `IntoOwnedGen` (uses every trait default) -/
def IntoOwnedGen : BodyGenerator where
  quote_borrowed_params := default_quote_borrowed_params
  quote_type_params := default_quote_type_params
  quote_rhs_params := default_quote_rhs_params
  visit_struct := intoOwnedVisitStruct
  visit_enum_data := intoOwnedVisitEnumData
  combine_impl := intoOwnedCombineImpl

/-- `BorrowedGen::quote_rhs_params`: every lifetime becomes the one fresh
`'__borrowedgen` -/
def borrowedQuoteRhsParams (ast : DeriveInput) : List String :=
  ast.generics.lifetimes.map (fun _ => "'__borrowedgen") ++ ast.generics.ty_params

/-- the per-field closure of `BorrowedGen::visit_struct` -/
def borrowedFieldCode (field : Field) : Except String String := do
  let ident ← unwrapIdent field.ident
  let code := (FieldKind.resolve field).borrow_or_clone ("self." ++ ident)
  pure (ident ++ ": " ++ code)

/-- `BorrowedGen::visit_struct` -/
def borrowedVisitStruct : Data → Except String String
  | .struct fields => do
    let fs ← mapExcept borrowedFieldCode fields
    pure ("\x7b " ++ joinComma fs ++ " \x7d")
  | .enum _ => Except.error "not yet implemented"
  | .union => Except.error "not yet implemented"

/-- `BorrowedGen::visit_enum_data` (patterns bind fields by `ref`) -/
def borrowedVisitEnumData (ident : String) : Data → Except String String
  | .struct fields => do
    let idents ← mapExcept (fun f => unwrapIdent f.ident) fields
    let cloned ← mapExcept (fun f => do
      let i ← unwrapIdent f.ident
      pure (i ++ ": " ++ (FieldKind.resolve f).borrow_or_clone i)) fields
    pure (ident ++ " \x7b " ++ joinComma (idents.map (fun i => "ref " ++ i)) ++
      " \x7d => " ++ ident ++ " \x7b " ++ joinComma cloned ++ " \x7d")
  | .enum _ => Except.error "not yet implemented"
  | .union => Except.error "not yet implemented"

/-- `BorrowedGen::combine_impl` -/
def borrowedCombineImpl (borrowed name params owned body : String) : String :=
  "impl " ++ borrowed ++ " " ++ name ++ " " ++ params ++
    " \x7b pub fn borrowed<'__borrowedgen>(&'__borrowedgen self) -> " ++
    name ++ " " ++ owned ++ " \x7b " ++ body ++ " \x7d \x7d"

/-- lib.rs `BorrowedGen` (overrides only `quote_rhs_params`) -/
def BorrowedGen : BodyGenerator where
  quote_borrowed_params := default_quote_borrowed_params
  quote_type_params := default_quote_type_params
  quote_rhs_params := borrowedQuoteRhsParams
  visit_struct := borrowedVisitStruct
  visit_enum_data := borrowedVisitEnumData
  combine_impl := borrowedCombineImpl

/-- `< #(#params),* >` or nothing, as `impl_with_generator` wraps each
parameter list -/
def angleWrap (params : List String) : String :=
  if params.isEmpty then "" else "< " ++ joinComma params ++ " >"

/-- lib.rs `impl_with_generator`: parameter lists, body by declaration
shape (`todo!()` on a union), then the strategy's `combine_impl` -/
def impl_with_generator (ast : DeriveInput) (g : BodyGenerator) :
    Except String String := do
  let name := ast.ident
  let borrowed := angleWrap (g.quote_borrowed_params ast)
  let params := angleWrap (g.quote_type_params ast)
  let owned := angleWrap (g.quote_rhs_params ast)
  let body ← match ast.data with
    | .struct _ => do
      let inner ← g.visit_struct ast.data
      pure (name ++ " " ++ inner)
    | .enum variants => do
      let cases ← mapExcept
        (fun v => g.visit_enum_data (name ++ "::" ++ v.1) v.2) variants
      pure ("match self \x7b " ++ joinComma cases ++ " \x7d")
    | .union => Except.error "not yet implemented"
  pure (g.combine_impl borrowed name params owned body)

/-- lib.rs `into_owned`, the `#[derive(IntoOwned)]` entry point -/
def into_owned (ast : DeriveInput) : Except String String :=
  impl_with_generator ast IntoOwnedGen

/-- lib.rs `borrowed`, the `#[derive(Borrowed)]` entry point -/
def borrowed (ast : DeriveInput) : Except String String :=
  impl_with_generator ast BorrowedGen

/-! ### Spec-side measurements and shape predicates -/

/-- how many lifetime arguments the last segment carries: the quantity the
spec's description of `has_lifetime_arguments` speaks about -/
def lifetimeArgumentCount (segments : List PathSegment) : Nat :=
  match lastArguments segments with
  | some (.angleBracketed args) => (args.filter GenericArg.isLifetime).length
  | _ => 0

/-- a struct body all of whose fields are named -/
def allNamedStruct : Data → Bool
  | .struct fields => fields.all fun f => f.ident.isSome
  | _ => false

/-- a struct body with at least one positional (unnamed) field -/
def hasUnnamedField : Data → Bool
  | .struct fields => fields.any fun f => f.ident.isNone
  | _ => false

/-! ### Concrete inputs -/

/-- the type `Cow<'a, str>` -/
def cowStrTy : Ty :=
  .path false [.mk "Cow" (.angleBracketed
    [.lifetime "'a", .tyArg (.path false [.mk "str" PathArguments.none])])]

/-- a field of type `Option<Option<Cow<'a, str>>>` -/
def optOptCowField : Field where
  ident := some "field"
  ty := .path false [.mk "Option" (.angleBracketed
    [.tyArg (.path false [.mk "Option" (.angleBracketed [.tyArg cowStrTy])])])]

/-- the path `Foo<'a>`: not the known wrapper, lifetime argument present -/
def fooLifetimeSegments : List PathSegment :=
  [.mk "Foo" (.angleBracketed [.lifetime "'a"])]

/-- a field of type `Foo<'a>` -/
def fooLifetimeField : Field where
  ident := some "f"
  ty := .path false fooLifetimeSegments

/-- the test input of src/tests/01-parse.rs: `struct Parsed<'a> { content:
Cow<'a, String>, string: String, number: u32 }` -/
def parsedAst : DeriveInput where
  ident := "Parsed"
  generics := { lifetimes := ["'a"], ty_params := [] }
  data := .struct
    [ { ident := some "content"
      , ty := .path false [.mk "Cow" (.angleBracketed
          [.lifetime "'a", .tyArg (.path false [.mk "String" PathArguments.none])])] }
    , { ident := some "string", ty := .path false [.mk "String" PathArguments.none] }
    , { ident := some "number", ty := .path false [.mk "u32" PathArguments.none] } ]

/-- `struct Pair<T, U> { a: T }`: two type parameters, named fields -/
def twoParamAst : DeriveInput where
  ident := "Pair"
  generics := { lifetimes := [], ty_params := ["T", "U"] }
  data := .struct [{ ident := some "a", ty := .path false [.mk "T" PathArguments.none] }]

/-- `struct Foo();`: a tuple-style struct with no fields at all -/
def emptyTupleAst : DeriveInput where
  ident := "Foo"
  generics := { lifetimes := [], ty_params := [] }
  data := .struct []

/-- `struct Bar(u32);`: a tuple-style struct with one positional field -/
def oneTupleAst : DeriveInput where
  ident := "Bar"
  generics := { lifetimes := [], ty_params := [] }
  data := .struct [{ ident := Option.none, ty := .path false [.mk "u32" PathArguments.none] }]

/-- a path shaped `Option<'a, Item = X, Cow>`: the one shape whose direct
lifetime and binding arguments defeat the (inverted) guards so the
optional-unwrap loop actually runs -/
def weirdOptField : Field where
  ident := some "o"
  ty := .path false [.mk "Option" (.angleBracketed
    [ .lifetime "'a"
    , .binding "Item" (.path false [.mk "X" PathArguments.none])
    , .tyArg (.path false [.mk "Cow" PathArguments.none]) ])]

/-- the analogous `Vec<'a, Item = X, Cow>` shape for the iterable loop -/
def weirdVecField : Field where
  ident := some "v"
  ty := .path false [.mk "Vec" (.angleBracketed
    [ .lifetime "'a"
    , .binding "Item" (.path false [.mk "X" PathArguments.none])
    , .tyArg (.path false [.mk "Cow" PathArguments.none]) ])]

/-! ### Helper lemmas -/

/-- whatever `is_opt_cow`'s loop returns is an `OptField` whose depth is at
least the `levels` counter it entered with and whose inner kind is
`PlainCow` or `AssumedCow` -/
theorem is_opt_cow_go_shape :
    ∀ (fuel levels : Nat) (segments : List PathSegment) (k : FieldKind),
      is_opt_cow_go fuel levels segments = some k →
      ∃ d i, k = .OptField d i ∧ levels ≤ d ∧
        (i = .PlainCow ∨ i = .AssumedCow) := by
  intro fuel
  induction fuel with
  | zero =>
    intro levels segments k h
    exact absurd h (by simp [is_opt_cow_go])
  | succ fuel ih =>
    intro levels segments k h
    simp only [is_opt_cow_go] at h
    split at h
    · split at h
      · split at h
        · exact absurd h (by simp)
        · split at h
          · exact absurd h (by simp)
          · split at h
            · obtain ⟨d, i, hk, hle, hi⟩ := ih _ _ _ h
              exact ⟨d, i, hk, by omega, hi⟩
            · exact absurd h (by simp)
      · exact absurd h (by simp)
    · split at h
      · exact ⟨levels, .PlainCow, (Option.some.injEq _ _ ▸ h).symm, le_refl _, Or.inl rfl⟩
      · split at h
        · exact ⟨levels, .AssumedCow, (Option.some.injEq _ _ ▸ h).symm, le_refl _, Or.inr rfl⟩
        · exact absurd h (by simp)

/-- whatever `is_iter_field`'s loop returns is an `IterableField` around
`PlainCow` or `AssumedCow` -/
theorem is_iter_field_go_shape :
    ∀ (fuel : Nat) (segments : List PathSegment) (k : FieldKind),
      is_iter_field_go fuel segments = some k →
      ∃ i, k = .IterableField i ∧ (i = .PlainCow ∨ i = .AssumedCow) := by
  intro fuel
  induction fuel with
  | zero =>
    intro segments k h
    exact absurd h (by simp [is_iter_field_go])
  | succ fuel ih =>
    intro segments k h
    simp only [is_iter_field_go] at h
    split at h
    · split at h
      · split at h
        · exact absurd h (by simp)
        · split at h
          · exact absurd h (by simp)
          · split at h
            · exact ih _ _ h
            · exact absurd h (by simp)
      · exact absurd h (by simp)
    · split at h
      · exact ⟨.PlainCow, (Option.some.injEq _ _ ▸ h).symm, Or.inl rfl⟩
      · split at h
        · exact ⟨.AssumedCow, (Option.some.injEq _ _ ▸ h).symm, Or.inr rfl⟩
        · exact absurd h (by simp)

/-- when `is_opt_cow` is entered on a path that is neither the known
wrapper nor Cow-alike (as `FieldKind::resolve` guarantees), a successful
result has depth at least one -/
theorem is_opt_cow_pos (segments : List PathSegment)
    (hc : is_cow segments = false) (ha : is_cow_alike segments = false)
    (k : FieldKind)
    (h : is_opt_cow segments = some k) :
    ∃ d i, k = .OptField d i ∧ 1 ≤ d ∧ (i = .PlainCow ∨ i = .AssumedCow) := by
  simp only [is_opt_cow, is_opt_cow_go] at h
  split at h
  · split at h
    · split at h
      · exact absurd h (by simp)
      · split at h
        · exact absurd h (by simp)
        · split at h
          · obtain ⟨d, i, hk, hle, hi⟩ := is_opt_cow_go_shape _ _ _ _ h
            exact ⟨d, i, hk, by omega, hi⟩
          · exact absurd h (by simp)
    · exact absurd h (by simp)
  · split at h
    · next hcow => exact absurd hcow (by simp [hc])
    · split at h
      · next halike => exact absurd halike (by simp [ha])
      · exact absurd h (by simp)

/-- `type_hopefully_is` succeeds exactly when the path's name sequence is a
non-empty suffix of the candidate's `::`-separated name sequence -/
theorem type_hopefully_is_iff_aux (segments : List PathSegment) (expected : String) :
    type_hopefully_is segments expected = true ↔
      ∃ k, 0 < k ∧ k ≤ (splitOnDoubleColons expected).length ∧
        segments.map PathSegment.identOf =
          (splitOnDoubleColons expected).drop
            ((splitOnDoubleColons expected).length - k) := by
  constructor
  · intro h
    simp only [type_hopefully_is] at h
    by_cases hlen : segments.length > (splitOnDoubleColons expected).length
    · rw [if_pos hlen] at h; exact absurd h (by simp)
    · rw [if_neg hlen] at h
      rw [List.any_eq_true] at h
      obtain ⟨len, hmem, heq⟩ := h
      rw [List.mem_range] at hmem
      refine ⟨len + 1, Nat.succ_pos _, hmem, ?_⟩
      have h2 := beq_iff_eq.mp heq
      rwa [Nat.sub_sub] at h2
  · rintro ⟨k, hk0, hkL, heq⟩
    simp only [type_hopefully_is]
    have hlenEq : segments.length = k := by
      have h1 := congrArg List.length heq
      rw [List.length_map, List.length_drop, Nat.sub_sub_self hkL] at h1
      exact h1
    rw [if_neg (by omega)]
    rw [List.any_eq_true]
    refine ⟨k - 1, ?_, ?_⟩
    · rw [List.mem_range]; omega
    · rw [beq_iff_eq, Nat.sub_sub]
      have hk : k - 1 + 1 = k := by omega
      rw [hk]
      exact heq

/-- a successful `type_hopefully_is` needs the path to be no longer than
the candidate -/
theorem type_hopefully_is_le_aux (segments : List PathSegment) (expected : String)
    (h : type_hopefully_is segments expected = true) :
    segments.length ≤ (splitOnDoubleColons expected).length := by
  by_contra hgt
  simp only [type_hopefully_is] at h
  rw [if_pos (by omega)] at h
  exact absurd h (by simp)

/-- the field iterator succeeds when every element does -/
theorem mapExcept_isOk_of_forall {α β : Type} (f : α → Except String β)
    (l : List α) (h : ∀ a ∈ l, (f a).isOk = true) :
    (mapExcept f l).isOk = true := by
  induction l with
  | nil => rfl
  | cons a rest ih =>
    have ha := h a (List.mem_cons_self a rest)
    cases hfa : f a with
    | error e => rw [hfa] at ha; simp [Except.isOk, Except.toBool] at ha
    | ok b =>
      have hrest := ih fun x hx => h x (List.mem_cons_of_mem a hx)
      cases hr : mapExcept f rest with
      | error e => rw [hr] at hrest; simp [Except.isOk, Except.toBool] at hrest
      | ok bs =>
        simp [mapExcept, hfa, hr, Except.isOk, Except.toBool, Bind.bind, Except.bind,
          Pure.pure, Except.pure]

/-- the field iterator aborts as soon as one element aborts -/
theorem mapExcept_isOk_false {α β : Type} (f : α → Except String β)
    (l : List α) (a : α) (ha : a ∈ l) (hf : (f a).isOk = false) :
    (mapExcept f l).isOk = false := by
  induction l with
  | nil => cases ha
  | cons b rest ih =>
    rcases List.mem_cons.mp ha with hab | hmem
    · subst hab
      cases hfa : f a with
      | error e =>
        simp [mapExcept, hfa, Except.isOk, Except.toBool, Bind.bind, Except.bind]
      | ok v => rw [hfa] at hf; simp [Except.isOk, Except.toBool] at hf
    · cases hfb : f b with
      | error e =>
        simp [mapExcept, hfb, Except.isOk, Except.toBool, Bind.bind, Except.bind]
      | ok v =>
        have hrest := ih hmem
        cases hr : mapExcept f rest with
        | error e =>
          simp [mapExcept, hfb, hr, Except.isOk, Except.toBool, Bind.bind, Except.bind]
        | ok bs => rw [hr] at hrest; simp [Except.isOk, Except.toBool] at hrest

/-- on a struct body, the IntoOwned derivation succeeds exactly when the
per-field synthesis over the field list does -/
theorem into_owned_isOk_struct (ast : DeriveInput) (fields : List Field)
    (hdata : ast.data = .struct fields) :
    (into_owned ast).isOk = (mapExcept intoOwnedFieldCode fields).isOk := by
  simp only [into_owned, impl_with_generator, hdata, IntoOwnedGen,
    intoOwnedVisitStruct]
  cases hr : mapExcept intoOwnedFieldCode fields with
  | error e => simp [hr, Except.isOk, Except.toBool, Bind.bind, Except.bind]
  | ok fs => simp [hr, Except.isOk, Except.toBool, Bind.bind, Except.bind, Pure.pure, Except.pure]

/-- on a struct body, the Borrowed derivation succeeds exactly when the
per-field synthesis over the field list does -/
theorem borrowed_isOk_struct (ast : DeriveInput) (fields : List Field)
    (hdata : ast.data = .struct fields) :
    (borrowed ast).isOk = (mapExcept borrowedFieldCode fields).isOk := by
  simp only [borrowed, impl_with_generator, hdata, BorrowedGen,
    borrowedVisitStruct]
  cases hr : mapExcept borrowedFieldCode fields with
  | error e => simp [hr, Except.isOk, Except.toBool, Bind.bind, Except.bind]
  | ok fs => simp [hr, Except.isOk, Except.toBool, Bind.bind, Except.bind, Pure.pure, Except.pure]

/-- a union aborts the IntoOwned derivation (the `todo!()` arm) -/
theorem into_owned_union_isOk (ast : DeriveInput) (hdata : ast.data = .union) :
    (into_owned ast).isOk = false := by
  simp [into_owned, impl_with_generator, hdata, Except.isOk, Except.toBool,
    Bind.bind, Except.bind]

/-- a union aborts the Borrowed derivation (the `todo!()` arm) -/
theorem borrowed_union_isOk (ast : DeriveInput) (hdata : ast.data = .union) :
    (borrowed ast).isOk = false := by
  simp [borrowed, impl_with_generator, hdata, Except.isOk, Except.toBool,
    Bind.bind, Except.bind]

/-- a named field's IntoOwned synthesis never aborts -/
theorem intoOwnedFieldCode_isOk_of_some (f : Field) (i : String)
    (h : f.ident = some i) : (intoOwnedFieldCode f).isOk = true := by
  simp [intoOwnedFieldCode, h, unwrapIdent, Except.isOk, Except.toBool,
    Bind.bind, Except.bind, Pure.pure, Except.pure]

/-- a named field's Borrowed synthesis never aborts -/
theorem borrowedFieldCode_isOk_of_some (f : Field) (i : String)
    (h : f.ident = some i) : (borrowedFieldCode f).isOk = true := by
  simp [borrowedFieldCode, h, unwrapIdent, Except.isOk, Except.toBool,
    Bind.bind, Except.bind, Pure.pure, Except.pure]

/-- a positional field's IntoOwned synthesis aborts (the ident unwrap) -/
theorem intoOwnedFieldCode_isOk_of_none (f : Field)
    (h : f.ident = Option.none) : (intoOwnedFieldCode f).isOk = false := by
  simp [intoOwnedFieldCode, h, unwrapIdent, Except.isOk, Except.toBool,
    Bind.bind, Except.bind]

/-- a positional field's Borrowed synthesis aborts (the ident unwrap) -/
theorem borrowedFieldCode_isOk_of_none (f : Field)
    (h : f.ident = Option.none) : (borrowedFieldCode f).isOk = false := by
  simp [borrowedFieldCode, h, unwrapIdent, Except.isOk, Except.toBool,
    Bind.bind, Except.bind]

theorem segment_mem_size_le (s : PathSegment) (l : List PathSegment)
    (h : s ∈ l) : PathSegment.size s ≤ sizeSegments l := by
  induction l with
  | nil => cases h
  | cons a rest ih =>
    rcases List.mem_cons.mp h with h | h
    · subst h; simp [sizeSegments]
    · have := ih h; simp [sizeSegments]; omega

theorem arg_mem_size_le (a : GenericArg) (args : List GenericArg)
    (h : a ∈ args) : GenericArg.size a ≤ sizeArgs args := by
  induction args with
  | nil => cases h
  | cons b rest ih =>
    rcases List.mem_cons.mp h with h | h
    · subst h; simp [sizeArgs]
    · have := ih h; simp [sizeArgs]; omega

theorem getLast?_mem' {α : Type} (l : List α) (a : α) (h : l.getLast? = some a) :
    a ∈ l := by
  induction l with
  | nil => simp at h
  | cons b rest ih =>
    cases rest with
    | nil => simp [List.getLast?] at h; subst h; exact List.mem_cons_self _ _
    | cons c rest2 =>
      rw [List.getLast?_cons_cons] at h
      exact List.mem_cons_of_mem b (ih h)

theorem next_segments_smaller (segments next : List PathSegment)
    (args : List GenericArg)
    (hlast : lastArguments segments = some (.angleBracketed args))
    (hhead : (typeArguments args).head? = some (.path false next)) :
    sizeSegments next < sizeSegments segments := by
  simp only [lastArguments, Option.map_eq_some'] at hlast
  obtain ⟨s, hs, hargs⟩ := hlast
  have hsmem : s ∈ segments := getLast?_mem' _ _ hs
  have hsle := segment_mem_size_le s segments hsmem
  obtain ⟨i, a⟩ := s
  simp only [PathSegment.argumentsOf] at hargs
  subst hargs
  have hts : Ty.path false next ∈ typeArguments args := by
    cases hl : typeArguments args with
    | nil => rw [hl] at hhead; simp at hhead
    | cons t rest =>
      rw [hl] at hhead
      simp only [List.head?_cons, Option.some.injEq] at hhead
      rw [← hhead]
      exact List.mem_cons_self _ _
  have hmem : GenericArg.tyArg (.path false next) ∈ args := by
    simp only [typeArguments, List.mem_filterMap] at hts
    obtain ⟨b, hbmem, hb⟩ := hts
    cases b with
    | lifetime nm => simp at hb
    | tyArg t => simp at hb; subst hb; exact hbmem
    | binding nm t => simp at hb
  have hale := arg_mem_size_le _ _ hmem
  simp only [GenericArg.size, Ty.size] at hale
  simp only [PathSegment.size, PathArguments.size] at hsle
  omega

/-- the fuel `sizeSegments segments + 1` that `is_opt_cow` passes to its
loop is semantically irrelevant: any fuel above the input's size gives
the same answer, because each iteration descends into a strictly smaller
segment list -/
theorem is_opt_cow_go_fuel_stable :
    ∀ (f1 f2 levels : Nat) (segments : List PathSegment),
      sizeSegments segments < f1 → sizeSegments segments < f2 →
      is_opt_cow_go f1 levels segments = is_opt_cow_go f2 levels segments := by
  intro f1
  induction f1 with
  | zero => intro f2 levels segments h1 h2; omega
  | succ n ih =>
    intro f2 levels segments h1 h2
    cases f2 with
    | zero => omega
    | succ m =>
      simp only [is_opt_cow_go]
      split
      · split
        · split
          · rfl
          · split
            · rfl
            · split
              · rename_i hth xargs args heq hguard hlen xscr next_segments hhead
                have hlt := next_segments_smaller segments next_segments args heq hhead
                exact ih m (levels + 1) next_segments (by omega) (by omega)
              · rfl
        · rfl
      · rfl

/-- fuel irrelevance for `is_iter_field`'s loop -/
theorem is_iter_field_go_fuel_stable :
    ∀ (f1 f2 : Nat) (segments : List PathSegment),
      sizeSegments segments < f1 → sizeSegments segments < f2 →
      is_iter_field_go f1 segments = is_iter_field_go f2 segments := by
  intro f1
  induction f1 with
  | zero => intro f2 segments h1 h2; omega
  | succ n ih =>
    intro f2 segments h1 h2
    cases f2 with
    | zero => omega
    | succ m =>
      simp only [is_iter_field_go]
      split
      · split
        · split
          · rfl
          · split
            · rfl
            · split
              · rename_i hth xargs args heq hguard hlen xscr next_segments hhead
                have hlt := next_segments_smaller segments next_segments args heq hhead
                exact ih m next_segments (by omega) (by omega)
              · rfl
        · rfl
      · rfl

/-! ### The claims -/

/-- C1: the claim says a field of type `Option<Option<Cow<'a, str>>>`
resolves to `OptField(2, PlainCow)` with two nested `.map` layers around
the `PlainCow` conversion. The code instead resolves it to `AssumedCow`
(so it synthesizes `self.field.into_owned()`): `is_cow_alike` is
consulted before `is_opt_cow`, and it holds because the negated
`has_lifetime_arguments` sees no lifetime among `Option`'s direct
arguments. The last conjunct records the two nested optional-map layers
that the claimed kind `OptField(2, PlainCow)` would synthesize. -/
theorem resolve_opt_opt_cow_eval :
    FieldKind.resolve optOptCowField = .AssumedCow ∧
    FieldKind.move_or_clone_field .AssumedCow "self.field" = "self.field.into_owned()" ∧
    FieldKind.move_or_clone_field (.OptField 2 .PlainCow) "self.field" =
      "self.field.map(|val| val.map(|val| ::std::borrow::Cow::Owned(val.into_owned())))" :=
  ⟨rfl, rfl, rfl⟩

/-- C2: the claim says a non-`Cow` path whose last segment carries a
lifetime argument (here `Foo<'a>`, which carries exactly one) resolves to
`AssumedCow`. The code resolves it to `JustMoved`: the negated
`has_lifetime_arguments` returns false exactly when a lifetime argument
is present, so `is_cow_alike` rejects `Foo<'a>`. -/
theorem resolve_lifetime_path_eval :
    lifetimeArgumentCount fooLifetimeSegments = 1 ∧
    is_cow fooLifetimeSegments = false ∧
    FieldKind.resolve fooLifetimeField = .JustMoved :=
  ⟨rfl, rfl, rfl⟩

/-- C3: on `struct Parsed<'a> { content: Cow<'a, String>, string: String,
number: u32 }` the IntoOwned derivation generates
`into_owned(self) -> Parsed<'static>` whose body builds `content` as
`::std::borrow::Cow::Owned(self.content.into_owned())` and moves
`string` and `number` unchanged. -/
theorem into_owned_parsed_generates :
    into_owned parsedAst = Except.ok
      "impl < 'a > Parsed < 'a > \x7b pub fn into_owned(self) -> Parsed < 'static > \x7b Parsed \x7b content: ::std::borrow::Cow::Owned(self.content.into_owned()), string: self.string, number: self.number \x7d \x7d \x7d" :=
  rfl

/-- C4: for every declaration, the IntoOwned target parameter list is one
`'static` per lifetime parameter followed by the type parameters
unchanged and in order, and the Borrowed target list is one
`'__borrowedgen` per lifetime parameter followed by the type parameters
unchanged. -/
theorem rhs_params_rewrite :
    ∀ ast : DeriveInput,
      IntoOwnedGen.quote_rhs_params ast =
        List.replicate ast.generics.lifetimes.length "'static" ++
          ast.generics.ty_params ∧
      BorrowedGen.quote_rhs_params ast =
        List.replicate ast.generics.lifetimes.length "'__borrowedgen" ++
          ast.generics.ty_params := by
  intro ast
  constructor <;>
    simp [IntoOwnedGen, BorrowedGen, default_quote_rhs_params,
      borrowedQuoteRhsParams, List.map_const']

/-- C5 counterexample: the claim says `has_lifetime_arguments` returns
true whenever zero lifetime arguments are present, in particular on a
path whose last segment carries no angle-bracketed list at all; on the
path `String` (zero lifetime arguments, no angle brackets) the predicate
returns false. -/
theorem has_lifetime_arguments_no_angles_cex :
    lifetimeArgumentCount [PathSegment.mk "String" PathArguments.none] = 0 ∧
    helpers.has_lifetime_arguments [PathSegment.mk "String" PathArguments.none] = false :=
  ⟨rfl, rfl⟩

/-- C5 as amended: `has_lifetime_arguments` returns true iff the last
segment carries an angle-bracketed argument list that contains zero
lifetime arguments; with no angle-bracketed list it returns false. -/
theorem has_lifetime_arguments_iff :
    ∀ segments : List PathSegment,
      helpers.has_lifetime_arguments segments = true ↔
        ∃ args, lastArguments segments = some (.angleBracketed args) ∧
          (args.filter GenericArg.isLifetime).length = 0 := by
  intro segments
  cases h : lastArguments segments with
  | none => simp [helpers.has_lifetime_arguments, h]
  | some pa =>
    cases pa with
    | none => simp [helpers.has_lifetime_arguments, h]
    | angleBracketed args =>
      simp [helpers.has_lifetime_arguments, h, List.length_eq_zero,
        List.filter_eq_nil_iff, List.any_eq_false]
    | parenthesized => simp [helpers.has_lifetime_arguments, h]

/-- C6: `type_hopefully_is` holds exactly when the path's segment-name
sequence equals some non-empty suffix of the candidate's `::`-separated
name sequence (the suffix of length `k` being `drop (length - k)`); it
therefore requires the path to be no longer than the candidate; and
`Cow` matches `std::borrow::Cow`, `std::borrow::Cow` matches it as well,
while `Cow` does not match `std::borrow::CowOther`. -/
theorem type_hopefully_is_suffix :
    (∀ (segments : List PathSegment) (expected : String),
      (type_hopefully_is segments expected = true ↔
        ∃ k, 0 < k ∧ k ≤ (splitOnDoubleColons expected).length ∧
          segments.map PathSegment.identOf =
            (splitOnDoubleColons expected).drop
              ((splitOnDoubleColons expected).length - k)) ∧
      (type_hopefully_is segments expected = true →
        segments.length ≤ (splitOnDoubleColons expected).length)) ∧
    type_hopefully_is [PathSegment.mk "Cow" PathArguments.none]
      "std::borrow::Cow" = true ∧
    type_hopefully_is [PathSegment.mk "std" PathArguments.none,
      PathSegment.mk "borrow" PathArguments.none,
      PathSegment.mk "Cow" PathArguments.none] "std::borrow::Cow" = true ∧
    type_hopefully_is [PathSegment.mk "Cow" PathArguments.none]
      "std::borrow::CowOther" = false :=
  ⟨fun segments expected =>
    ⟨type_hopefully_is_iff_aux segments expected,
     type_hopefully_is_le_aux segments expected⟩, rfl, rfl, rfl⟩

/-- C7 counterexample: the claim says the IntoOwned path aborts on more
than one type parameter; on `struct Pair<T, U> { a: T }` (two type
parameters) the IntoOwned derivation produces an output fragment. -/
theorem into_owned_two_ty_params_cex :
    1 < twoParamAst.generics.ty_params.length ∧
    (into_owned twoParamAst).isOk = true :=
  ⟨by decide, rfl⟩

/-- C7 as amended: neither derivation path checks the type-parameter
count; a declaration with more than one type parameter whose body is a
struct with all fields named produces an output fragment on both the
IntoOwned and the Borrowed path. -/
theorem no_ty_param_count_check :
    ∀ ast : DeriveInput, 1 < ast.generics.ty_params.length →
      allNamedStruct ast.data = true →
      (into_owned ast).isOk = true ∧ (borrowed ast).isOk = true := by
  intro ast _ h
  cases hdata : ast.data with
  | struct fields =>
    rw [hdata] at h
    simp only [allNamedStruct, List.all_eq_true] at h
    constructor
    · rw [into_owned_isOk_struct ast fields hdata]
      apply mapExcept_isOk_of_forall
      intro a ha
      obtain ⟨i, hi⟩ := Option.isSome_iff_exists.mp (h a ha)
      exact intoOwnedFieldCode_isOk_of_some a i hi
    · rw [borrowed_isOk_struct ast fields hdata]
      apply mapExcept_isOk_of_forall
      intro a ha
      obtain ⟨i, hi⟩ := Option.isSome_iff_exists.mp (h a ha)
      exact borrowedFieldCode_isOk_of_some a i hi
  | enum variants => rw [hdata] at h; simp [allNamedStruct] at h
  | union => rw [hdata] at h; simp [allNamedStruct] at h

/-- C7 witness: the amended statement applied to `Pair<T, U>`. -/
theorem no_ty_param_count_check_witness :
    (into_owned twoParamAst).isOk = true ∧ (borrowed twoParamAst).isOk = true :=
  no_ty_param_count_check twoParamAst (by decide) rfl

/-- C8 counterexample: the claim says every union and every tuple-style
struct aborts both derivations; the field-less tuple struct
`struct Foo();` (no positional field to trip the ident unwrap) makes
both derivations produce an output fragment. -/
theorem empty_tuple_struct_generates_cex :
    (into_owned emptyTupleAst).isOk = true ∧
    (borrowed emptyTupleAst).isOk = true :=
  ⟨rfl, rfl⟩

/-- C8 as amended: every union, and every struct with at least one
positional (unnamed) field — hence every tuple-style struct with at
least one field — aborts both derivations at generation time, producing
no output fragment. -/
theorem union_or_unnamed_aborts :
    ∀ ast : DeriveInput,
      (ast.data = .union ∨ hasUnnamedField ast.data = true) →
      (into_owned ast).isOk = false ∧ (borrowed ast).isOk = false := by
  intro ast h
  rcases h with h | h
  · exact ⟨into_owned_union_isOk ast h, borrowed_union_isOk ast h⟩
  · cases hdata : ast.data with
    | struct fields =>
      rw [hdata] at h
      simp only [hasUnnamedField, List.any_eq_true] at h
      obtain ⟨f, hmem, hnone⟩ := h
      have hfn : f.ident = Option.none := Option.isNone_iff_eq_none.mp hnone
      constructor
      · rw [into_owned_isOk_struct ast fields hdata]
        exact mapExcept_isOk_false _ _ f hmem (intoOwnedFieldCode_isOk_of_none f hfn)
      · rw [borrowed_isOk_struct ast fields hdata]
        exact mapExcept_isOk_false _ _ f hmem (borrowedFieldCode_isOk_of_none f hfn)
    | enum variants => rw [hdata] at h; simp [hasUnnamedField] at h
    | union => rw [hdata] at h; simp [hasUnnamedField] at h

/-- C8 witness: the amended statement applied to `struct Bar(u32);`. -/
theorem union_or_unnamed_aborts_witness :
    (into_owned oneTupleAst).isOk = false ∧ (borrowed oneTupleAst).isOk = false :=
  union_or_unnamed_aborts oneTupleAst (Or.inr rfl)

/-- C9: every `OptField` the classifier produces has depth at least 1 and
an inner kind that is `PlainCow` or `AssumedCow`, and every
`IterableField` it produces wraps `PlainCow` or `AssumedCow`; so the
`levels - 1` subtractions in `move_or_clone_field` and `borrow_or_clone`
never underflow on a classifier-produced kind. -/
theorem resolve_nested_kind_invariant :
    ∀ (field : Field) (d : Nat) (inner : FieldKind),
      (FieldKind.resolve field = .OptField d inner →
        1 ≤ d ∧ (inner = .PlainCow ∨ inner = .AssumedCow)) ∧
      (FieldKind.resolve field = .IterableField inner →
        inner = .PlainCow ∨ inner = .AssumedCow) := by
  intro field d inner
  constructor
  · intro h
    unfold FieldKind.resolve at h
    split at h
    · split at h
      · exact absurd h (by simp)
      · split at h
        · exact absurd h (by simp)
        · next hcow halike =>
          split at h
          · next kind hopt =>
            obtain ⟨d', i', hk, hd, hi⟩ :=
              is_opt_cow_pos _ (by simpa using hcow) (by simpa using halike) _ hopt
            subst hk
            cases h
            exact ⟨hd, hi⟩
          · split at h
            · next kind hiter =>
              obtain ⟨i', hk, hi⟩ := is_iter_field_go_shape _ _ _ hiter
              subst hk
              cases h
            · exact absurd h (by simp)
    · exact absurd h (by simp)
  · intro h
    unfold FieldKind.resolve at h
    split at h
    · split at h
      · exact absurd h (by simp)
      · split at h
        · exact absurd h (by simp)
        · next hcow halike =>
          split at h
          · next kind hopt =>
            obtain ⟨d', i', hk, hd, hi⟩ :=
              is_opt_cow_pos _ (by simpa using hcow) (by simpa using halike) _ hopt
            subst hk
            cases h
          · split at h
            · next kind hiter =>
              obtain ⟨i', hk, hi⟩ := is_iter_field_go_shape _ _ _ hiter
              subst hk
              cases h
              exact hi
            · exact absurd h (by simp)
    · exact absurd h (by simp)

/-- C9 witness: both nested kinds are actually produced by the classifier
on paths whose direct lifetime and binding arguments defeat the inverted
guards, so the invariant is not vacuous. -/
theorem resolve_nested_kind_invariant_witness :
    FieldKind.resolve weirdOptField = .OptField 1 .PlainCow ∧
    FieldKind.resolve weirdVecField = .IterableField .PlainCow :=
  ⟨rfl, rfl⟩

/-- C10: helpers' `has_lifetime_arguments`, helpers' `is_cow_alike` and
lib.rs's `is_cow_alike` agree on every segment list; the lib version's
extra angle-bracket guard is redundant because the helper already
returns false without an angle-bracketed list. -/
theorem cow_alike_predicates_agree :
    ∀ segments : List PathSegment,
      helpers.has_lifetime_arguments segments = helpers.is_cow_alike segments ∧
      helpers.is_cow_alike segments = is_cow_alike segments := by
  intro segments
  refine ⟨rfl, ?_⟩
  cases h : lastArguments segments with
  | none =>
    simp [helpers.is_cow_alike, is_cow_alike, h]
  | some pa =>
    cases pa with
    | none => simp [helpers.is_cow_alike, is_cow_alike, h]
    | angleBracketed args =>
      simp [helpers.is_cow_alike, is_cow_alike, helpers.has_lifetime_arguments, h]
    | parenthesized => simp [helpers.is_cow_alike, is_cow_alike, h]

end DeriveIntoOwned
